import Mathlib

/-
Verification of the authentication/token lifecycle subsystem of the
conjurinc/api-go client library, shallowly embedded from the Go source.

Embedding conventions:
- Go byte slices are `List Nat` (one entry per byte).
- A Go `error` value is an `Err` (a message wrapper); `Option Err` models a
  possibly-nil error result, `Except Err α` a `(α, error)` pair where exactly
  one side is meaningful.
- Effectful collaborators (the authenticator, the credential store, the
  remote HTTP endpoints) are modelled by their observable results, and the
  calls the client makes to them are recorded in an event trace so that
  "exactly one call" / "no call" properties are statable.
- A Go nil-pointer dereference (calling a method on a nil interface without
  a guard) is modelled as the outer `none` of an `Option` result.
- `authn.NewToken` / `AuthnToken` live in a package that is not part of the
  source under verification; token parsing is therefore passed in as an
  explicit function `parse : Bytes → Except Err AuthnToken`, and a token's
  `ShouldRefresh()` result is carried as a snapshot field on the token.
-/

abbrev Bytes := List Nat

/-- A Go `error` value: all the client code observes is non-nilness and the
message, so the model carries just the message. -/
structure Err where
  msg : String
deriving DecidableEq, Repr

/-- The `authn.AuthnToken` value as the client code observes it: its raw
bytes (`Raw()`) and the result of `ShouldRefresh()` at query time.
`FromJSON`, called by the client right after `NewToken` on the very same
bytes, re-populates fields the parse already populated, so it is a no-op in
this model. -/
structure AuthnToken where
  raw : Bytes
  shouldRefresh : Bool
deriving DecidableEq, Repr

/-- View of an `Except` value as a sum, to derive decidable equality. -/
def Except.toSum : Except Err Bytes → Err ⊕ Bytes
  | .error e => .inl e
  | .ok a => .inr a

instance : DecidableEq (Except Err Bytes) := fun a b =>
  decidable_of_iff (a.toSum = b.toSum) (by cases a <;> cases b <;> simp [Except.toSum])

/-- The authenticator collaborator as observed through one operation: the
result its `RefreshToken()` call would produce, and its
`NeedsTokenRefresh()` report. -/
structure Authenticator where
  refreshToken : Except Err Bytes
  needsTokenRefresh : Bool
deriving DecidableEq, Repr

/-- The credential store collaborator: results of its four operations. -/
structure Storage where
  readAuthnToken : Except Err Bytes
  storeAuthnToken : Option Err
  storeCredentials : Option Err
  purgeCredentials : Option Err
deriving DecidableEq, Repr

/-- The `Config` struct (fields of the config file, plus `AuthnType` which
`authn.go` reads through `GetConfig()`). Only `Account` and `ApplianceURL`
carry the `validate:"required"` tag. -/
structure Config where
  account : String
  apiKey : String
  applianceURL : String
  login : String
  authnTokenFile : String
  authnType : String
deriving DecidableEq, Repr

/-- The auth-related state of the `Client` struct: config, the current
in-memory token, the authenticator and the credential store (each of the
latter an interface that may be nil). -/
structure Client where
  config : Config
  authToken : Option AuthnToken
  authenticator : Option Authenticator
  storage : Option Storage
deriving DecidableEq, Repr

/-- Observable calls the client makes to its collaborators. -/
inductive Event where
  | authRefresh
  | readToken
  | storeToken (b : Bytes)
  | storeCreds (login : String) (secret : Bytes)
  | purge
deriving DecidableEq, Repr

/-- `Client.readCachedAccessToken` (authn.go:69-82): read bytes from the
store, parse them, return nil on any failure. The store interface is
dereferenced without a nil guard, hence the outer `Option`. -/
def Client.readCachedAccessToken (parse : Bytes → Except Err AuthnToken)
    (c : Client) : Option (Option AuthnToken × List Event) :=
  match c.storage with
  | none => none
  | some st =>
    match st.readAuthnToken with
    | .error _ => some (none, [.readToken])
    | .ok tokenBytes =>
      match parse tokenBytes with
      | .error _ => some (none, [.readToken])
      | .ok token => some (some token, [.readToken])

/-- `Client.NeedsTokenRefresh` (authn.go:63-67):
`c.authToken == nil || c.authToken.ShouldRefresh() ||
c.authenticator.NeedsTokenRefresh()`, with Go short-circuit evaluation, so
the authenticator is only dereferenced on the last disjunct. -/
def Client.NeedsTokenRefresh (c : Client) : Option Bool :=
  match c.authToken with
  | none => some true
  | some token =>
    if token.shouldRefresh then some true
    else
      match c.authenticator with
      | none => none
      | some a => some a.needsTokenRefresh

/-- `Client.refreshToken` (authn.go:46-61): call the authenticator's
`RefreshToken`, propagate its error; parse the bytes with `authn.NewToken`,
propagate its error; otherwise install the new token. Result:
(error result, updated client, trace). -/
def Client.refreshToken (parse : Bytes → Except Err AuthnToken)
    (c : Client) : Option (Option Err × Client × List Event) :=
  match c.authenticator with
  | none => none
  | some a =>
    match a.refreshToken with
    | .error e => some (some e, c, [.authRefresh])
    | .ok tokenBytes =>
      match parse tokenBytes with
      | .error e => some (some e, c, [.authRefresh])
      | .ok token => some (none, { c with authToken := some token }, [.authRefresh])

/-- `Client.ForceRefreshToken` (authn.go:42-44): delegates to
`refreshToken` unconditionally. -/
def Client.ForceRefreshToken (parse : Bytes → Except Err AuthnToken)
    (c : Client) : Option (Option Err × Client × List Event) :=
  c.refreshToken parse

/-- The tail of `Client.RefreshToken` (authn.go:35-39): refresh if
`NeedsTokenRefresh`, otherwise succeed without side effects. -/
def Client.refreshCore (parse : Bytes → Except Err AuthnToken)
    (c : Client) : Option (Option Err × Client × List Event) :=
  match c.NeedsTokenRefresh with
  | none => none
  | some true => c.refreshToken parse
  | some false => some (none, c, [])

/-- `Client.RefreshToken` (authn.go:26-40): for OIDC configs first hydrate
`authToken` from the store's cached copy (installing it only when the read
and parse both succeed), then refresh if stale. -/
def Client.RefreshToken (parse : Bytes → Except Err AuthnToken)
    (c : Client) : Option (Option Err × Client × List Event) :=
  if c.config.authnType = "oidc" then
    match c.readCachedAccessToken parse with
    | none => none
    | some (tokenOpt, tr) =>
      let c1 := match tokenOpt with
        | some token => { c with authToken := some token }
        | none => c
      match c1.refreshCore parse with
      | none => none
      | some (r, c2, tr2) => some (r, c2, tr ++ tr2)
  else
    c.refreshCore parse

/-- The standard base64 alphabet (RFC 4648), as used by
`base64.StdEncoding`. -/
def base64Alphabet : List Char :=
  "ABCDEFGHIJKLMNOPQRSTUVWXYZabcdefghijklmnopqrstuvwxyz0123456789+/".toList

def b64c (n : Nat) : Char := base64Alphabet.getD n '?'

/-- `base64.StdEncoding.EncodeToString`: three bytes become four sextet
characters; a final group of one or two bytes is padded with `=`. -/
def base64StdEncode : Bytes → String
  | [] => ""
  | [a] => String.mk [b64c (a / 4 % 64), b64c (a % 4 * 16), '=', '=']
  | [a, b] => String.mk [b64c (a / 4 % 64), b64c (a % 4 * 16 + b / 16 % 16),
      b64c (b % 16 * 4), '=']
  | a :: b :: d :: rest =>
    String.mk [b64c (a / 4 % 64), b64c (a % 4 * 16 + b / 16 % 16),
      b64c (b % 16 * 4 + d / 64 % 4), b64c (d % 64)] ++ base64StdEncode rest

/-- An HTTP header as an association list of (canonical key, value). -/
abbrev Header := List (String × String)

/-- `http.Header.Set`: replaces any existing values for the key with the
single given value. -/
def headerSet (h : Header) (key val : String) : Header :=
  (key, val) :: h.filter (fun p => p.1 ≠ key)

/-- All values a header holds for a key. -/
def headerValues (h : Header) (key : String) : List String :=
  (h.filter (fun p => p.1 = key)).map (fun p => p.2)

/-- The Authorization value `fmt.Sprintf("Token token=\"%s\"", base64(raw))`
built in `createAuthRequest` (authn.go:89-92). -/
def authHeaderValue (token : AuthnToken) : String :=
  "Token token=\"" ++ base64StdEncode token.raw ++ "\""

/-- The header-stamping step of `createAuthRequest`:
`req.Header.Set("Authorization", authHeaderValue token)`. -/
def stampRequest (req : Header) (token : AuthnToken) : Header :=
  headerSet req "Authorization" (authHeaderValue token)

/-- `Client.createAuthRequest` (authn.go:84-95): refresh the token, then
stamp the request with the in-memory token. -/
def Client.createAuthRequest (parse : Bytes → Except Err AuthnToken)
    (c : Client) (req : Header) :
    Option (Except Err Header × Client × List Event) :=
  match c.RefreshToken parse with
  | none => none
  | some (some e, c1, tr) => some (.error e, c1, tr)
  | some (none, c1, tr) =>
    match c1.authToken with
    | none => none
    | some token => some (.ok (stampRequest req token), c1, tr)

/-- `Client.Login` (authn.go:137-158): `remote` is the combined result of
building the login request, performing it and extracting the data response.
On remote success, if a store is present the API key is written through
`StoreCredentials` and — as the source reads `err = c.storage.StoreCredentials(...)`
followed by `return apiKey, err` — the store error is returned alongside
the API key. -/
def Client.Login (remote : Except Err Bytes) (c : Client)
    (login : String) (_password : String) :
    (Option Bytes × Option Err) × List Event :=
  match remote with
  | .error e => ((none, some e), [])
  | .ok apiKey =>
    match c.storage with
    | none => ((some apiKey, none), [])
    | some st => ((some apiKey, st.storeCredentials), [.storeCreds login apiKey])

/-- `Client.OidcAuthenticate` (authn.go:274-292): `remote` is the combined
result of building the OIDC authenticate request, performing it and
extracting the data response. On remote success with a store present, the
response bytes are stored via `StoreAuthnToken` with the store's error
discarded. -/
def Client.OidcAuthenticate (remote : Except Err Bytes) (c : Client)
    (_code _nonce _codeVerifier : String) :
    (Option Bytes × Option Err) × List Event :=
  match remote with
  | .error e => ((none, some e), [])
  | .ok resp =>
    match c.storage with
    | none => ((some resp, none), [])
    | some _st => ((some resp, none), [.storeToken resp])

/-- `Client.PurgeCredentials` (authn.go:161-167): nil store is a silent
no-op; otherwise the store's `PurgeCredentials` error is returned. -/
def Client.PurgeCredentials (c : Client) : Option Err × List Event :=
  match c.storage with
  | none => (none, [])
  | some st => (st.purgeCredentials, [.purge])

/-- `Client.InternalAuthenticate` (authn.go:186-205): nil authenticator is
an error; for OIDC configs, return the cached token's raw bytes when it is
present and not `ShouldRefresh()`, else a re-login-required error; for all
other configs delegate to the authenticator's `RefreshToken`. -/
def Client.InternalAuthenticate (parse : Bytes → Except Err AuthnToken)
    (c : Client) : Option ((Option Bytes × Option Err) × List Event) :=
  match c.authenticator with
  | none =>
    some ((none, some ⟨"unable to authenticate using client without authenticator"⟩), [])
  | some a =>
    if c.config.authnType = "oidc" then
      match c.readCachedAccessToken parse with
      | none => none
      | some (tokenOpt, tr) =>
        match tokenOpt with
        | some token =>
          if !token.shouldRefresh then some ((some token.raw, none), tr)
          else some ((none, some ⟨"No valid OIDC token found. Please login again."⟩), tr)
        | none => some ((none, some ⟨"No valid OIDC token found. Please login again."⟩), tr)
    else
      match a.refreshToken with
      | .error e => some ((none, some e), [.authRefresh])
      | .ok b => some ((some b, none), [.authRefresh])

/-- Modelled from the spec: the `authn` package's token freshness policy is
not under the source tree (only its callers are). Per the spec, a token
issued at `issuedAt`, with known lifetime `lifetime` and refresh margin
`margin`, should refresh exactly when the elapsed time since issuance has
reached `lifetime - margin`. Times are in abstract ticks. -/
def shouldRefreshAt (issuedAt lifetime margin now : Nat) : Bool :=
  decide (lifetime - margin ≤ now - issuedAt)

/-- Which `Config` fields carry the `validate:"required"` struct tag. -/
def requiredTag (field : String) : Bool :=
  field = "Account" || field = "ApplianceURL"

/-- The fields of `Config` in declaration order, as the reflection loop in
`Config.validate` visits them. -/
def Config.fieldList (c : Config) : List (String × String) :=
  [("Account", c.account), ("APIKey", c.apiKey),
   ("ApplianceURL", c.applianceURL), ("Login", c.login),
   ("AuthnTokenFile", c.authnTokenFile), ("AuthnType", c.authnType)]

/-- `Config.validate`: collect `"<Field> is required."` for every
required-tagged field holding the empty string, in declaration order; nil
error when none, else the messages joined with newlines. -/
def Config.validate (c : Config) : Option Err :=
  let errs := (c.fieldList.filter (fun f => requiredTag f.1 && f.2 = "")).map
      (fun f => f.1 ++ " is required.")
  if errs = [] then none else some ⟨String.intercalate "\n" errs⟩

/-! Concrete sample values used by witnesses and counterexamples. -/

/-- A config with a non-OIDC authenticator type. -/
def cfgPlain : Config := ⟨"cucumber", "", "https://conjur", "", "", ""⟩

/-- A config whose `AuthnType` is `"oidc"`. -/
def cfgOidc : Config := ⟨"cucumber", "", "https://conjur", "", "", "oidc"⟩

/-- A token that does not yet need a refresh. -/
def tokFresh : AuthnToken := ⟨[1, 2, 3], false⟩

/-- An authenticator whose refresh succeeds with fixed bytes. -/
def authOk : Authenticator := ⟨.ok [7, 8, 9], false⟩

/-- An authenticator whose refresh fails. -/
def authBad : Authenticator := ⟨.error ⟨"401 Invalid"⟩, false⟩

/-- A store holding cached token bytes, with all writes succeeding. -/
def stGood : Storage := ⟨.ok [4, 5, 6], none, none, none⟩

/-- A store holding cached token bytes but whose writes and purge fail. -/
def stBadWrites : Storage := ⟨.ok [4, 5, 6], some ⟨"disk full"⟩, some ⟨"disk full"⟩, some ⟨"locked"⟩⟩

/-- A parse oracle under which every byte string is a fresh token. -/
def parseAll : Bytes → Except Err AuthnToken := fun b => .ok ⟨b, false⟩

/-- A parse oracle under which every byte string is a stale token. -/
def parseStale : Bytes → Except Err AuthnToken := fun b => .ok ⟨b, true⟩

/-- Recognizes a `StoreAuthnToken` write in a trace. -/
def isStoreTokenEvent : Event → Bool
  | .storeToken _ => true
  | _ => false

/-! Helper lemmas about the refresh path. -/

/-- A failed `refreshToken` leaves the client unchanged and makes exactly
one authenticator call. -/
theorem refreshToken_error_shape (parse : Bytes → Except Err AuthnToken)
    (c : Client) (e : Err) (c' : Client) (tr : List Event)
    (h : c.refreshToken parse = some (some e, c', tr)) :
    c' = c ∧ tr = [Event.authRefresh] := by
  unfold Client.refreshToken at h
  split at h
  · simp_all
  · split at h
    · simp_all
    · split at h <;> simp_all

/-- A failed `refreshCore` comes from a failed `refreshToken`: the client is
unchanged by it and exactly one authenticator call was made. -/
theorem refreshCore_error_shape (parse : Bytes → Except Err AuthnToken)
    (c : Client) (e : Err) (c' : Client) (tr : List Event)
    (h : c.refreshCore parse = some (some e, c', tr)) :
    c' = c ∧ tr = [Event.authRefresh] := by
  unfold Client.refreshCore at h
  cases hn : c.NeedsTokenRefresh with
  | none => rw [hn] at h; exact absurd h (by simp)
  | some b =>
    rw [hn] at h
    cases b with
    | true => exact refreshToken_error_shape parse c e c' tr h
    | false => simp_all

example : base64StdEncode [77, 97, 110] = "TWFu" := by decide
example : base64StdEncode [77, 97] = "TWE=" := by decide
example : base64StdEncode [77] = "TQ==" := by decide

/-- C7: `NeedsTokenRefresh` is true exactly when the client holds no token,
or the held token reports `ShouldRefresh`, or the authenticator reports
`NeedsTokenRefresh`; a client with no token always reports true. -/
theorem needsTokenRefresh_disjunction (c : Client) (a : Authenticator)
    (h : c.authenticator = some a) :
    (c.NeedsTokenRefresh = some true ↔
      c.authToken = none ∨
      (∃ t, c.authToken = some t ∧ t.shouldRefresh = true) ∨
      a.needsTokenRefresh = true) ∧
    (c.authToken = none → c.NeedsTokenRefresh = some true) := by
  constructor
  · cases htok : c.authToken with
    | none => simp [Client.NeedsTokenRefresh, htok]
    | some t =>
      by_cases hs : t.shouldRefresh <;>
        simp [Client.NeedsTokenRefresh, htok, h, hs]
  · intro htok
    simp [Client.NeedsTokenRefresh, htok]

/-- Witness for C7 at a freshly constructed client. -/
theorem needsTokenRefresh_disjunction_witness :
    ((Client.mk cfgPlain none (some authOk) none).NeedsTokenRefresh = some true ↔
      (Client.mk cfgPlain none (some authOk) none).authToken = none ∨
      (∃ t, (Client.mk cfgPlain none (some authOk) none).authToken = some t ∧
        t.shouldRefresh = true) ∨
      authOk.needsTokenRefresh = true) ∧
    ((Client.mk cfgPlain none (some authOk) none).authToken = none →
      (Client.mk cfgPlain none (some authOk) none).NeedsTokenRefresh = some true) :=
  needsTokenRefresh_disjunction (Client.mk cfgPlain none (some authOk) none) authOk rfl

/-- C6: `ForceRefreshToken` is exactly the unconditional refresh step: it
never consults `NeedsTokenRefresh`, makes exactly one authenticator call,
and on success installs the newly obtained token even when the current
token is not stale. -/
theorem forceRefreshToken_unconditional (parse : Bytes → Except Err AuthnToken)
    (c : Client) (a : Authenticator) (h : c.authenticator = some a) :
    c.ForceRefreshToken parse = c.refreshToken parse ∧
    (∃ r c', c.ForceRefreshToken parse = some (r, c', [Event.authRefresh])) ∧
    (∀ b t, a.refreshToken = .ok b → parse b = .ok t →
      c.ForceRefreshToken parse =
        some (none, { c with authToken := some t }, [Event.authRefresh])) := by
  refine ⟨rfl, ?_, ?_⟩
  · simp only [Client.ForceRefreshToken, Client.refreshToken, h]
    cases hr : a.refreshToken with
    | error e => simp only [hr]; exact ⟨some e, c, rfl⟩
    | ok b =>
      cases hp : parse b with
      | error e => simp only [hr, hp]; exact ⟨some e, c, rfl⟩
      | ok t => simp only [hr, hp]; exact ⟨_, _, rfl⟩
  · intro b t hr hp
    simp only [Client.ForceRefreshToken, Client.refreshToken, h, hr, hp]

/-- Witness for C6 at a client whose current token is still fresh. -/
theorem forceRefreshToken_unconditional_witness :
    (Client.mk cfgPlain (some tokFresh) (some authOk) none).NeedsTokenRefresh = some false ∧
    (Client.mk cfgPlain (some tokFresh) (some authOk) none).ForceRefreshToken parseAll =
      some (none,
        { Client.mk cfgPlain (some tokFresh) (some authOk) none with
            authToken := some ⟨[7, 8, 9], false⟩ },
        [Event.authRefresh]) :=
  ⟨rfl,
    (forceRefreshToken_unconditional parseAll
      (Client.mk cfgPlain (some tokFresh) (some authOk) none) authOk rfl).2.2
      [7, 8, 9] ⟨[7, 8, 9], false⟩ rfl rfl⟩

/-- Two successive filters where the first discards a key leave nothing
with that key. -/
theorem filter_ne_then_eq (req : Header) (k : String) :
    (req.filter (fun p => p.1 ≠ k)).filter (fun p => p.1 = k) = [] := by
  induction req with
  | nil => rfl
  | cons p rest ih =>
    by_cases h : p.1 = k <;> simp [h, ih]

/-- Filtering a key out is idempotent. -/
theorem filter_ne_idem (req : Header) (k : String) :
    (req.filter (fun p => p.1 ≠ k)).filter (fun p => p.1 ≠ k) =
      req.filter (fun p => p.1 ≠ k) := by
  induction req with
  | nil => rfl
  | cons p rest ih =>
    by_cases h : p.1 = k <;> simp [h, ih]

/-- C8: stamping a request sets exactly one Authorization header, whose
value is the fixed encoding of the token's raw bytes, and stamping twice
with the same token produces the identical request as stamping once. -/
theorem stampRequest_single_idempotent (req : Header) (token : AuthnToken) :
    headerValues (stampRequest req token) "Authorization" =
      ["Token token=\"" ++ base64StdEncode token.raw ++ "\""] ∧
    stampRequest (stampRequest req token) token = stampRequest req token := by
  constructor
  · unfold stampRequest headerValues headerSet authHeaderValue
    simp [filter_ne_then_eq]
  · unfold stampRequest headerSet
    simp [List.filter_cons, filter_ne_idem]

/-- C9: against the spec-modelled freshness policy, a token issued at `T`
with lifetime `L` and margin `M < L` should not refresh strictly before
`T + (L - M)` and should refresh from that instant on; the result is a pure
function of the issuance and query times. -/
theorem shouldRefreshAt_threshold (issuedAt lifetime margin now : Nat)
    (h : margin < lifetime) :
    (shouldRefreshAt issuedAt lifetime margin now = false ↔
      now < issuedAt + (lifetime - margin)) ∧
    (shouldRefreshAt issuedAt lifetime margin now = true ↔
      issuedAt + (lifetime - margin) ≤ now) := by
  unfold shouldRefreshAt
  constructor
  · simp only [decide_eq_false_iff_not, not_le]
    omega
  · simp only [decide_eq_true_eq]
    omega

/-- Witness for C9: an 8-tick lifetime with a 2-tick margin, queried one
tick before the threshold. -/
theorem shouldRefreshAt_threshold_witness :
    (shouldRefreshAt 100 8 2 105 = false ↔ 105 < 100 + (8 - 2)) ∧
    (shouldRefreshAt 100 8 2 105 = true ↔ 100 + (8 - 2) ≤ 105) :=
  shouldRefreshAt_threshold 100 8 2 105 (by decide)

/-- C10: `Config.validate` succeeds exactly when `Account` and
`ApplianceURL` are both non-empty; otherwise the error is the
newline-joined list of the required-field messages in declaration order,
and no non-required field affects the result. -/
theorem config_validate_required_fields (c : Config) :
    (c.validate = none ↔ c.account ≠ "" ∧ c.applianceURL ≠ "") ∧
    (c.account = "" → c.applianceURL = "" →
      c.validate = some ⟨"Account is required.\nApplianceURL is required."⟩) ∧
    (c.account = "" → c.applianceURL ≠ "" →
      c.validate = some ⟨"Account is required."⟩) ∧
    (c.account ≠ "" → c.applianceURL = "" →
      c.validate = some ⟨"ApplianceURL is required."⟩) ∧
    (∀ c' : Config, c.account = c'.account → c.applianceURL = c'.applianceURL →
      c.validate = c'.validate) := by
  have key : ∀ d : Config, d.validate =
      if d.account = "" then
        (if d.applianceURL = "" then
          some ⟨"Account is required.\nApplianceURL is required."⟩
        else some ⟨"Account is required."⟩)
      else
        (if d.applianceURL = "" then some ⟨"ApplianceURL is required."⟩
        else none) := by
    intro d
    by_cases ha : d.account = "" <;> by_cases hb : d.applianceURL = "" <;>
      simp [Config.validate, Config.fieldList, requiredTag, ha, hb] <;> rfl
  refine ⟨?_, ?_, ?_, ?_, ?_⟩
  · rw [key c]
    by_cases ha : c.account = "" <;> by_cases hb : c.applianceURL = "" <;>
      simp [ha, hb]
  · intro ha hb; rw [key c]; simp [ha, hb]
  · intro ha hb; rw [key c]; simp [ha, hb]
  · intro ha hb; rw [key c]; simp [ha, hb]
  · intro c' h1 h2; rw [key c, key c', h1, h2]

/-- The shape of any successful `readCachedAccessToken` call: one store
read, and a token only when the read and the parse both succeeded. -/
theorem readCachedAccessToken_shape (parse : Bytes → Except Err AuthnToken)
    (c : Client) (res : Option AuthnToken × List Event)
    (h : c.readCachedAccessToken parse = some res) :
    res.2 = [Event.readToken] ∧
    (res.1 = none ∨ ∃ st b t, c.storage = some st ∧ st.readAuthnToken = .ok b ∧
      parse b = .ok t ∧ res.1 = some t) := by
  unfold Client.readCachedAccessToken at h
  split at h
  · exact absurd h (by simp)
  · rename_i st hst
    split at h
    · cases h; exact ⟨rfl, Or.inl rfl⟩
    · rename_i b hb
      split at h
      · cases h; exact ⟨rfl, Or.inl rfl⟩
      · rename_i t ht
        cases h; exact ⟨rfl, Or.inr ⟨st, b, t, hst, hb, ht, rfl⟩⟩

/-- Prefixes the store-read event to a refresh outcome's trace. -/
def withReadEvent (r : Option Err × Client × List Event) :
    Option Err × Client × List Event :=
  (r.1, r.2.1, Event.readToken :: r.2.2)

/-- The continuation match in `RefreshToken` is an `Option.map` of the
trace-prefixing function. -/
theorem match_map_withReadEvent (x : Option (Option Err × Client × List Event)) :
    (match x with
      | none => none
      | some (r, c2, tr2) => some (r, c2, [Event.readToken] ++ tr2)) =
      x.map withReadEvent := by
  cases x with
  | none => rfl
  | some r => rfl

/-- C4: for an OIDC config with a store, `RefreshToken` first reads and
parses the cached token; on success it installs it as the current token
before the staleness evaluation (`refreshCore` starts with
`NeedsTokenRefresh`), and a read or parse failure silently leaves the
prior state in force. -/
theorem oidc_hydration_before_staleness (parse : Bytes → Except Err AuthnToken)
    (c : Client) (st : Storage)
    (hty : c.config.authnType = "oidc") (hst : c.storage = some st) :
    (∀ e, st.readAuthnToken = .error e →
      c.RefreshToken parse = (c.refreshCore parse).map withReadEvent) ∧
    (∀ b e, st.readAuthnToken = .ok b → parse b = .error e →
      c.RefreshToken parse = (c.refreshCore parse).map withReadEvent) ∧
    (∀ b t, st.readAuthnToken = .ok b → parse b = .ok t →
      c.RefreshToken parse =
        (({ c with authToken := some t }).refreshCore parse).map withReadEvent) := by
  refine ⟨?_, ?_, ?_⟩
  · intro e he
    simp only [Client.RefreshToken, Client.readCachedAccessToken, hty, hst, he, reduceIte]
    cases c.refreshCore parse with
    | none => rfl
    | some r => rfl
  · intro b e hb he
    simp only [Client.RefreshToken, Client.readCachedAccessToken, hty, hst, hb, he,
      reduceIte]
    cases c.refreshCore parse with
    | none => rfl
    | some r => rfl
  · intro b t hb ht
    simp only [Client.RefreshToken, Client.readCachedAccessToken, hty, hst, hb, ht,
      reduceIte]
    exact match_map_withReadEvent _

/-- Witness for C4: a seeded store hydrates the session before the
staleness check. -/
theorem oidc_hydration_before_staleness_witness :
    (Client.mk cfgOidc none (some authOk) (some stGood)).RefreshToken parseAll =
      ((Client.mk cfgOidc (some ⟨[4, 5, 6], false⟩) (some authOk) (some stGood)).refreshCore
          parseAll).map withReadEvent :=
  (oidc_hydration_before_staleness parseAll
      (Client.mk cfgOidc none (some authOk) (some stGood)) stGood rfl rfl).2.2
    [4, 5, 6] ⟨[4, 5, 6], false⟩ rfl rfl

/-- C5: for an OIDC config, `InternalAuthenticate` returns the cached
token's raw bytes exactly when the store read parses into a token that does
not yet need refresh; in every other case it fails with the
re-login-required error; and in all cases it performs no authenticator
call. -/
theorem internalAuthenticate_oidc_cache_only (parse : Bytes → Except Err AuthnToken)
    (c : Client) (a : Authenticator) (st : Storage)
    (hty : c.config.authnType = "oidc") (ha : c.authenticator = some a)
    (hst : c.storage = some st) :
    (∀ b t, st.readAuthnToken = .ok b → parse b = .ok t → t.shouldRefresh = false →
      c.InternalAuthenticate parse = some ((some t.raw, none), [Event.readToken])) ∧
    (∀ b t, st.readAuthnToken = .ok b → parse b = .ok t → t.shouldRefresh = true →
      c.InternalAuthenticate parse =
        some ((none, some ⟨"No valid OIDC token found. Please login again."⟩),
          [Event.readToken])) ∧
    (∀ b e, st.readAuthnToken = .ok b → parse b = .error e →
      c.InternalAuthenticate parse =
        some ((none, some ⟨"No valid OIDC token found. Please login again."⟩),
          [Event.readToken])) ∧
    (∀ e, st.readAuthnToken = .error e →
      c.InternalAuthenticate parse =
        some ((none, some ⟨"No valid OIDC token found. Please login again."⟩),
          [Event.readToken])) ∧
    (∀ out, c.InternalAuthenticate parse = some out → Event.authRefresh ∉ out.2) := by
  have conj1 : ∀ b t, st.readAuthnToken = .ok b → parse b = .ok t →
      t.shouldRefresh = false →
      c.InternalAuthenticate parse = some ((some t.raw, none), [Event.readToken]) := by
    intro b t hb ht hs
    simp only [Client.InternalAuthenticate, Client.readCachedAccessToken, ha, hty, hst, hb,
      ht, hs, reduceIte, Bool.not_false, if_pos]
  have conj2 : ∀ b t, st.readAuthnToken = .ok b → parse b = .ok t →
      t.shouldRefresh = true →
      c.InternalAuthenticate parse =
        some ((none, some ⟨"No valid OIDC token found. Please login again."⟩),
          [Event.readToken]) := by
    intro b t hb ht hs
    simp only [Client.InternalAuthenticate, Client.readCachedAccessToken, ha, hty, hst, hb,
      ht, hs, reduceIte, Bool.not_true, Bool.false_eq_true, if_false]
  have conj3 : ∀ b e, st.readAuthnToken = .ok b → parse b = .error e →
      c.InternalAuthenticate parse =
        some ((none, some ⟨"No valid OIDC token found. Please login again."⟩),
          [Event.readToken]) := by
    intro b e hb he
    simp only [Client.InternalAuthenticate, Client.readCachedAccessToken, ha, hty, hst, hb,
      he, reduceIte]
  have conj4 : ∀ e, st.readAuthnToken = .error e →
      c.InternalAuthenticate parse =
        some ((none, some ⟨"No valid OIDC token found. Please login again."⟩),
          [Event.readToken]) := by
    intro e he
    simp only [Client.InternalAuthenticate, Client.readCachedAccessToken, ha, hty, hst, he,
      reduceIte]
  refine ⟨conj1, conj2, conj3, conj4, ?_⟩
  intro out hout
  cases hr : st.readAuthnToken with
  | error e =>
    rw [conj4 e hr] at hout
    injection hout with h2
    subst h2
    simp
  | ok b =>
    cases hp : parse b with
    | error e =>
      rw [conj3 b e hr hp] at hout
      injection hout with h2
      subst h2
      decide
    | ok t =>
      cases hs : t.shouldRefresh with
      | true =>
        rw [conj2 b t hr hp hs] at hout
        injection hout with h2
        subst h2
        simp
      | false =>
        rw [conj1 b t hr hp hs] at hout
        injection hout with h2
        subst h2
        simp

/-- Witness for C5: a seeded, still-fresh cached token is returned
verbatim. -/
theorem internalAuthenticate_oidc_cache_only_witness :
    (Client.mk cfgOidc none (some authOk) (some stGood)).InternalAuthenticate parseAll =
      some ((some (AuthnToken.mk [4, 5, 6] false).raw, none), [Event.readToken]) :=
  (internalAuthenticate_oidc_cache_only parseAll
      (Client.mk cfgOidc none (some authOk) (some stGood)) authOk stGood rfl rfl rfl).1
    [4, 5, 6] ⟨[4, 5, 6], false⟩ rfl rfl rfl

/-- Witness for C10 at a config missing both required fields. -/
theorem config_validate_required_fields_witness :
    Config.validate ⟨"", "key", "", "login", "file", ""⟩ =
      some ⟨"Account is required.\nApplianceURL is required."⟩ :=
  (config_validate_required_fields ⟨"", "key", "", "login", "file", ""⟩).2.1 rfl rfl

/-- C1 counterexample: at this client the private `refreshToken` call
succeeds (nil error) and its complete event trace is the single
authenticator call — it contains zero `StoreAuthnToken` writes, even
though a credential store is present, so the new token is not written
through the CredentialStore as part of the refresh. -/
theorem refreshToken_no_store_write_cex :
    (Client.refreshToken parseAll
        (Client.mk cfgPlain none (some authOk) (some stGood))).map
      (fun r => (r.1, r.2.2.countP isStoreTokenEvent)) = some (none, 0) := rfl

/-- C1 amended: the refresh step itself never writes through the
CredentialStore — any `refreshToken` outcome's trace is exactly one
authenticator call and no store write; the best-effort token write exists
only in `OidcAuthenticate`, which on remote success stores the response
bytes through `StoreAuthnToken` and swallows any store failure (its error
result is nil even when the store's write fails). -/
theorem refresh_store_write_amended (parse : Bytes → Except Err AuthnToken)
    (c : Client) :
    (∀ r c' tr, c.refreshToken parse = some (r, c', tr) →
      tr = [Event.authRefresh] ∧ tr.countP isStoreTokenEvent = 0) ∧
    (∀ b st code nonce cv, c.storage = some st →
      c.OidcAuthenticate (.ok b) code nonce cv =
        ((some b, none), [Event.storeToken b])) := by
  constructor
  · intro r c' tr h
    unfold Client.refreshToken at h
    split at h
    · simp_all
    · split at h
      · cases h; exact ⟨rfl, rfl⟩
      · split at h
        · cases h; exact ⟨rfl, rfl⟩
        · cases h; exact ⟨rfl, rfl⟩
  · intro b st code nonce cv hst
    simp only [Client.OidcAuthenticate, hst]

/-- Witness for C1 amended: a successful refresh keeps its trace to the
authenticator call even with a store that would fail every write, and
`OidcAuthenticate` succeeds while that failing store absorbs the write
error. -/
theorem refresh_store_write_amended_witness :
    ([Event.authRefresh] = [Event.authRefresh] ∧
      List.countP isStoreTokenEvent [Event.authRefresh] = 0) ∧
    (Client.mk cfgPlain none (some authOk) (some stBadWrites)).OidcAuthenticate
        (.ok [9, 9]) "code" "nonce" "verifier" =
      ((some [9, 9], none), [Event.storeToken [9, 9]]) :=
  ⟨(refresh_store_write_amended parseAll
        (Client.mk cfgPlain none (some authOk) (some stBadWrites))).1
      none
      (Client.mk cfgPlain (some ⟨[7, 8, 9], false⟩) (some authOk) (some stBadWrites))
      [Event.authRefresh] rfl,
    (refresh_store_write_amended parseAll
        (Client.mk cfgPlain none (some authOk) (some stBadWrites))).2
      [9, 9] stBadWrites "code" "nonce" "verifier" rfl⟩

/-- C2 counterexample: `Login` with a successful remote exchange but a
store whose `StoreCredentials` fails returns that store error to the
caller (alongside the API key) — the write failure is not swallowed. -/
theorem login_returns_store_error_cex :
    Client.Login (.ok [9, 9])
        (Client.mk cfgPlain none (some authOk) (some stBadWrites)) "alice" "pw" =
      ((some [9, 9], some ⟨"disk full"⟩), [Event.storeCreds "alice" [9, 9]]) := rfl

/-- C2 amended: a failed or unparseable store read is a cache miss (nil
token, no error); a `StoreAuthnToken` failure inside `OidcAuthenticate` is
swallowed; a `PurgeCredentials` failure is surfaced; but `Login` returns
the `StoreCredentials` error to the caller (together with the API key)
when the remote call succeeded and the write failed. -/
theorem store_failure_policy_amended (parse : Bytes → Except Err AuthnToken)
    (c : Client) (st : Storage) (hst : c.storage = some st) :
    (∀ e, st.readAuthnToken = .error e →
      c.readCachedAccessToken parse = some (none, [Event.readToken])) ∧
    (∀ b e, st.readAuthnToken = .ok b → parse b = .error e →
      c.readCachedAccessToken parse = some (none, [Event.readToken])) ∧
    (∀ b code nonce cv, c.OidcAuthenticate (.ok b) code nonce cv =
      ((some b, none), [Event.storeToken b])) ∧
    (∀ apiKey login pw, c.Login (.ok apiKey) login pw =
      ((some apiKey, st.storeCredentials), [Event.storeCreds login apiKey])) ∧
    c.PurgeCredentials = (st.purgeCredentials, [Event.purge]) := by
  refine ⟨?_, ?_, ?_, ?_, ?_⟩
  · intro e he
    simp only [Client.readCachedAccessToken, hst, he]
  · intro b e hb he
    simp only [Client.readCachedAccessToken, hst, hb, he]
  · intro b code nonce cv
    simp only [Client.OidcAuthenticate, hst]
  · intro apiKey login pw
    simp only [Client.Login, hst]
  · simp only [Client.PurgeCredentials, hst]

/-- Witness for C2 amended, at a store whose writes and purge all fail. -/
theorem store_failure_policy_amended_witness :
    ((Client.mk cfgPlain none (some authOk) (some stBadWrites)).OidcAuthenticate
        (.ok [4, 5, 6]) "c" "n" "v" =
      ((some [4, 5, 6], none), [Event.storeToken [4, 5, 6]])) ∧
    ((Client.mk cfgPlain none (some authOk) (some stBadWrites)).Login
        (.ok [9, 9]) "alice" "pw" =
      ((some [9, 9], stBadWrites.storeCredentials), [Event.storeCreds "alice" [9, 9]])) ∧
    (Client.mk cfgPlain none (some authOk) (some stBadWrites)).PurgeCredentials =
      (stBadWrites.purgeCredentials, [Event.purge]) :=
  ⟨(store_failure_policy_amended parseAll
      (Client.mk cfgPlain none (some authOk) (some stBadWrites)) stBadWrites rfl).2.2.1
        [4, 5, 6] "c" "n" "v",
    (store_failure_policy_amended parseAll
      (Client.mk cfgPlain none (some authOk) (some stBadWrites)) stBadWrites rfl).2.2.2.1
        [9, 9] "alice" "pw",
    (store_failure_policy_amended parseAll
      (Client.mk cfgPlain none (some authOk) (some stBadWrites)) stBadWrites rfl).2.2.2.2⟩

/-- C3 counterexample: an OIDC client whose store holds a cached-but-stale
token and whose authenticator fails. `RefreshToken` returns the
authenticator's error, but the in-memory token has changed: the old token
`⟨[1,2,3], false⟩` was replaced by the hydrated cached token
`⟨[4,5,6], true⟩` before the failing refresh, so the authToken field is not
left unchanged. -/
theorem refresh_failure_replaces_token_cex :
    (Client.mk cfgOidc (some ⟨[1, 2, 3], false⟩) (some authBad)
        (some stGood)).RefreshToken parseStale =
      some (some ⟨"401 Invalid"⟩,
        Client.mk cfgOidc (some ⟨[4, 5, 6], true⟩) (some authBad) (some stGood),
        [Event.readToken, Event.authRefresh]) ∧
    (Client.mk cfgOidc (some ⟨[1, 2, 3], false⟩) (some authBad)
        (some stGood)).authToken = some ⟨[1, 2, 3], false⟩ ∧
    (AuthnToken.mk [1, 2, 3] false) ≠ (AuthnToken.mk [4, 5, 6] true) :=
  ⟨rfl, rfl, by decide⟩

/-- C3 amended: when a refresh attempt fails, its error is returned to the
caller, exactly one authenticator refresh call is made within the call, and
the failed attempt installs no token: the private `refreshToken` and
`ForceRefreshToken` leave the client completely unchanged, while the public
`RefreshToken` leaves `authToken` unchanged except that for OIDC configs the
cache-hydration step preceding the attempt may have installed the store's
cached token (never a token from the failed refresh). -/
theorem refresh_failure_amended (parse : Bytes → Except Err AuthnToken) (c : Client) :
    (∀ a e, c.authenticator = some a → a.refreshToken = .error e →
      c.refreshToken parse = some (some e, c, [Event.authRefresh]) ∧
      c.ForceRefreshToken parse = some (some e, c, [Event.authRefresh])) ∧
    (∀ a b e, c.authenticator = some a → a.refreshToken = .ok b → parse b = .error e →
      c.refreshToken parse = some (some e, c, [Event.authRefresh]) ∧
      c.ForceRefreshToken parse = some (some e, c, [Event.authRefresh])) ∧
    (∀ e c' tr, c.RefreshToken parse = some (some e, c', tr) →
      tr.count Event.authRefresh = 1 ∧
      (c'.authToken = c.authToken ∨
        (c.config.authnType = "oidc" ∧ ∃ st b t, c.storage = some st ∧
          st.readAuthnToken = .ok b ∧ parse b = .ok t ∧ c'.authToken = some t))) := by
  refine ⟨?_, ?_, ?_⟩
  · intro a e ha hr
    constructor
    · simp only [Client.refreshToken, ha, hr]
    · simp only [Client.ForceRefreshToken, Client.refreshToken, ha, hr]
  · intro a b e ha hr hp
    constructor
    · simp only [Client.refreshToken, ha, hr, hp]
    · simp only [Client.ForceRefreshToken, Client.refreshToken, ha, hr, hp]
  · intro e c' tr h
    unfold Client.RefreshToken at h
    split at h
    · rename_i hty
      split at h
      · exact absurd h (by simp)
      · rename_i tokenOpt tr1 heq
        have hshape := readCachedAccessToken_shape parse c (tokenOpt, tr1) heq
        obtain ⟨htr1, hopt⟩ := hshape
        dsimp only at htr1
        cases tokenOpt with
        | none =>
          dsimp only at h
          split at h
          · exact absurd h (by simp)
          · rename_i r c2 tr2 heq2
            simp only [Option.some.injEq, Prod.mk.injEq] at h
            obtain ⟨hre, hc2, htr⟩ := h
            subst hre
            obtain ⟨hcc, htr2⟩ := refreshCore_error_shape parse c e c2 tr2 heq2
            subst hc2
            subst hcc
            subst htr2
            subst htr1
            constructor
            · simp [← htr]
            · exact Or.inl rfl
        | some t =>
          dsimp only at h
          split at h
          · exact absurd h (by simp)
          · rename_i r c2 tr2 heq2
            simp only [Option.some.injEq, Prod.mk.injEq] at h
            obtain ⟨hre, hc2, htr⟩ := h
            subst hre
            obtain ⟨hcc, htr2⟩ :=
              refreshCore_error_shape parse { c with authToken := some t } e c2 tr2 heq2
            subst hc2
            subst hcc
            subst htr2
            subst htr1
            constructor
            · simp [← htr]
            · rcases hopt with hnone | ⟨st, b, t2, hst, hb, ht2, hsome⟩
              · exact absurd hnone (by simp)
              · simp only [Option.some.injEq] at hsome
                exact Or.inr ⟨hty, st, b, t2, hst, hb, ht2, by rw [hsome]⟩
    · rename_i hty
      obtain ⟨hcc, htr⟩ := refreshCore_error_shape parse c e c' tr h
      subst hcc
      subst htr
      exact ⟨rfl, Or.inl rfl⟩

/-- Witness for C3 amended: a failing authenticator leaves the client
untouched and the error is surfaced by both refresh entry points. -/
theorem refresh_failure_amended_witness :
    (Client.mk cfgPlain (some tokFresh) (some authBad) none).refreshToken parseAll =
      some (some ⟨"401 Invalid"⟩,
        Client.mk cfgPlain (some tokFresh) (some authBad) none, [Event.authRefresh]) ∧
    (Client.mk cfgPlain (some tokFresh) (some authBad) none).ForceRefreshToken parseAll =
      some (some ⟨"401 Invalid"⟩,
        Client.mk cfgPlain (some tokFresh) (some authBad) none, [Event.authRefresh]) :=
  (refresh_failure_amended parseAll
      (Client.mk cfgPlain (some tokFresh) (some authBad) none)).1
    authBad ⟨"401 Invalid"⟩ rfl rfl
